import Mathlib

/-!
# Component Remix Engine — embedding and verification

Shallow embedding of the extension's pure logic:

* `src/content.js` — `cleanElementAttributes`, `buildComputedCssForElement`,
  `extractElement` (markup normalizer, style snapshot extractor, extraction
  pipeline);
* `src/utils/ai.js` — the JSON-recovery / validation / normalization tail of
  `callOpenAIForRemix` (the remix client);
* `src/utils/codegen.js` — `toReactComponent`, `toVueSFC`, `toHtmlCss`,
  `generateCodeForFramework` (the code generator);
* `src/utils/storage.js` — `createId`, `saveComponent`, `updateComponent`,
  `deleteComponent`, `searchComponents` (the library store);
* `src/background.js` — the `chrome.runtime.onMessage` dispatch.

Host effects (fetch, `chrome.storage`, `Date.now`, `Math.random`,
`window.getComputedStyle`, `JSON.parse`) are passed in as explicit
parameters or modelled by small executable functions noted at their
definitions.
-/

namespace CRE

/-! ## Basic string helpers (JS semantics) -/

/-- Substring containment on character lists: JavaScript
`String.prototype.includes` / the implicit containment used when checking
what a generated artifact embeds. -/
def listContains (needle hay : List Char) : Bool :=
  match hay with
  | [] => needle.isEmpty
  | _ :: t => needle.isPrefixOf hay || listContains needle t

/-- `hay.includes(needle)` on strings. -/
def strContains (hay needle : String) : Bool :=
  listContains needle.data hay.data

/-- JS string truthiness: the empty string is the only falsy string. -/
def strTruthy (s : String) : Bool := s ≠ ""

/-- JS `a || b` on strings (`b` when `a` is empty). -/
def strOr (a b : String) : String := if a = "" then b else a

/-- JS `a || b` where `a` may be absent (`undefined`) and the empty string is
falsy. -/
def optStrOr (a : Option String) (b : String) : String :=
  match a with
  | none => b
  | some s => strOr s b

/-- JS `"".startsWith(p)` on attribute names. -/
def strStarts (s p : String) : Bool := p.isPrefixOf s

theorem listContains_spec (needle hay : List Char) :
    listContains needle hay = true ↔ ∃ pre post, hay = pre ++ needle ++ post := by
  induction hay with
  | nil =>
    simp only [listContains, List.isEmpty_iff]
    constructor
    · rintro rfl; exact ⟨[], [], rfl⟩
    · rintro ⟨pre, post, h⟩
      rcases List.append_eq_nil.mp (List.append_eq_nil.mp h.symm).1 with ⟨-, h2⟩
      exact h2
  | cons c t ih =>
    simp only [listContains, Bool.or_eq_true, ih, List.isPrefixOf_iff_prefix]
    constructor
    · rintro (⟨u, hu⟩ | ⟨pre, post, rfl⟩)
      · exact ⟨[], u, by simp [hu]⟩
      · exact ⟨c :: pre, post, rfl⟩
    · rintro ⟨pre, post, h⟩
      cases pre with
      | nil => exact Or.inl ⟨post, by simpa using h.symm⟩
      | cons a s =>
        cases h
        exact Or.inr ⟨s, post, rfl⟩

/-! ## DOM model (content.js)

A DOM subtree: element nodes carry a tag, an attribute list (name/value
pairs, excluding `class`, which the DOM exposes separately as `classList` /
`className`), a class list and children; non-element nodes (text, comments)
carry only their text. -/

inductive DomNode where
  | text (s : String)
  | element (tag : String) (attrs : List (String × String))
      (classes : List String) (children : List DomNode)

/-- `content.js` `cleanElementAttributes(node)`: on an element node, remove
the `id` attribute, collapse a non-empty class list to the single synthetic
class `"cre-component"`, remove every attribute whose name starts with
`"data-"`, then recurse into the element children (`node.children`); a
non-element node is returned untouched (`nodeType !== ELEMENT_NODE` guard). -/
def cleanElementAttributes : DomNode → DomNode
  | .text s => .text s
  | .element tag attrs classes children =>
      let attrs1 := attrs.filter (fun a => a.1 ≠ "id")
      let classes1 := if classes.length > 0 then ["cre-component"] else classes
      let attrs2 := attrs1.filter (fun a => !strStarts a.1 "data-")
      .element tag attrs2 classes1
        (children.attach.map (fun c => cleanElementAttributes c.1))
termination_by n => sizeOf n
decreasing_by
  simp only [DomNode.element.sizeOf_spec]
  have := List.sizeOf_lt_of_mem c.2
  omega

/-- `true` when no node of the subtree carries an `id` attribute nor an
attribute whose name starts with `"data-"`. -/
def cleanAttrsOk : DomNode → Bool
  | .text _ => true
  | .element _ attrs _ children =>
      attrs.all (fun a => a.1 ≠ "id" && !strStarts a.1 "data-") &&
      children.attach.all (fun c => cleanAttrsOk c.1)
termination_by n => sizeOf n
decreasing_by
  simp only [DomNode.element.sizeOf_spec]
  have := List.sizeOf_lt_of_mem c.2
  omega

/-- `true` when, node for node, the class list of `post` is `pre`'s class
list collapsed to the single synthetic class exactly when `pre` had any
class: elements with classes get `["cre-component"]`, classless elements
stay classless, and the two trees have the same shape otherwise. -/
def classesNormalized : DomNode → DomNode → Bool
  | .text s, .text s' => s = s'
  | .element _ _ classes children, .element _ _ classes' children' =>
      (if classes.length > 0 then classes' = ["cre-component"]
       else classes' = ([] : List String)) &&
      children.length = children'.length &&
      (children.zip children').attach.all
        (fun c => classesNormalized c.1.1 c.1.2)
  | _, _ => false
termination_by n _ => sizeOf n
decreasing_by
  rcases c with ⟨⟨x, y⟩, hm⟩
  have h1 := (List.of_mem_zip hm).1
  have := List.sizeOf_lt_of_mem h1
  simp only [DomNode.element.sizeOf_spec]
  omega

theorem all_attach {α : Type _} (l : List α) (p : α → Bool) :
    l.attach.all (fun c => p c.1) = l.all p := by
  rw [Bool.eq_iff_iff]
  simp only [List.all_eq_true, List.mem_attach, true_implies, Subtype.forall]

theorem all_attach_pair {α β : Type _} (l : List (α × β)) (q : α → β → Bool) :
    l.attach.all (fun c => q c.1.1 c.1.2) = l.all (fun x => q x.1 x.2) := by
  rw [Bool.eq_iff_iff]
  simp only [List.all_eq_true, List.mem_attach, true_implies, Subtype.forall]

theorem all_map_general {α β : Type _} (l : List α) (f : α → β) (p : β → Bool) :
    (l.map f).all p = l.all (fun x => p (f x)) := by
  induction l with
  | nil => rfl
  | cons x t ih => simp [ih]

theorem zip_self_map {α β : Type _} (f : α → β) (l : List α) :
    l.zip (l.map f) = l.map (fun x => (x, f x)) := by
  induction l with
  | nil => rfl
  | cons x t ih => simp [ih]

theorem cleanElementAttributes_element (t : String) (a : List (String × String))
    (c : List String) (ch : List DomNode) :
    cleanElementAttributes (.element t a c ch) =
      .element t
        ((a.filter (fun x => x.1 ≠ "id")).filter (fun x => !strStarts x.1 "data-"))
        (if c.length > 0 then ["cre-component"] else c)
        (ch.map cleanElementAttributes) := by
  rw [cleanElementAttributes]
  simp [List.attach_map_val]

theorem cleanAttrsOk_element (t : String) (a : List (String × String))
    (c : List String) (ch : List DomNode) :
    cleanAttrsOk (.element t a c ch) =
      (a.all (fun x => x.1 ≠ "id" && !strStarts x.1 "data-") &&
        ch.all cleanAttrsOk) := by
  rw [cleanAttrsOk, all_attach]

theorem classesNormalized_element (t t' : String) (a a' : List (String × String))
    (c c' : List String) (ch ch' : List DomNode) :
    classesNormalized (.element t a c ch) (.element t' a' c' ch') =
      ((if c.length > 0 then (c' = ["cre-component"] : Bool)
        else (c' = ([] : List String) : Bool)) &&
       (ch.length = ch'.length : Bool) &&
       (ch.zip ch').all (fun x => classesNormalized x.1 x.2)) := by
  rw [classesNormalized, all_attach_pair]

theorem clean_cleanAttrsOk : (n : DomNode) →
    cleanAttrsOk (cleanElementAttributes n) = true
  | .text _ => by simp [cleanElementAttributes, cleanAttrsOk]
  | .element t a c ch => by
      rw [cleanElementAttributes_element, cleanAttrsOk_element, Bool.and_eq_true]
      constructor
      · simp only [List.all_eq_true, List.mem_filter]
        intro x hx
        rw [Bool.and_eq_true]
        exact ⟨hx.1.2, hx.2⟩
      · simp only [all_map_general, List.all_eq_true]
        intro x hx
        exact clean_cleanAttrsOk x
termination_by n => sizeOf n
decreasing_by
  have := List.sizeOf_lt_of_mem hx
  simp only [DomNode.element.sizeOf_spec]
  omega

theorem clean_classesNormalized : (n : DomNode) →
    classesNormalized n (cleanElementAttributes n) = true
  | .text _ => by
      rw [cleanElementAttributes, classesNormalized]
      simp
  | .element t a c ch => by
      rw [cleanElementAttributes_element, classesNormalized_element]
      simp only [Bool.and_eq_true]
      refine ⟨⟨?_, ?_⟩, ?_⟩
      · by_cases h : c.length > 0
        · simp [h]
        · have hc : c = [] := List.length_eq_zero.mp (by omega)
          simp [h, hc]
      · simp
      · rw [zip_self_map]
        simp only [all_map_general, List.all_eq_true]
        intro x hx
        exact clean_classesNormalized x
termination_by n => sizeOf n
decreasing_by
  have := List.sizeOf_lt_of_mem hx
  simp only [DomNode.element.sizeOf_spec]
  omega

/-- C4: for every element, the tree produced by the markup normalizer
(`cleanElementAttributes`, applied by `extractElement` to the deep copy)
carries, at every depth, no `id` attribute and no attribute whose name
starts with the scoped-data prefix `"data-"`, and every node that
originally had any class names has its whole class list replaced by exactly
the one synthetic class `"cre-component"`, the same for the whole tree
(classless nodes stay classless). -/
theorem cre_c4_normalize_clean (n : DomNode) :
    cleanAttrsOk (cleanElementAttributes n) = true ∧
    classesNormalized n (cleanElementAttributes n) = true :=
  ⟨clean_cleanAttrsOk n, clean_classesNormalized n⟩

/-! ## Style snapshot extractor (content.js, `buildComputedCssForElement`)

The computed-style view of an element is modelled as a total function from
property names to value strings (a missing property reads as `""`, which JS
treats as falsy, exactly like `undefined` in the `value && …` test). The
host API may be unavailable (`!window.getComputedStyle`) or may throw
(`try/catch`), modelled by a flag and an `Except` result. -/

/-- The fixed allow-list of computed style properties, in source order. -/
def importantProps : List String :=
  ["display", "position", "top", "right", "bottom", "left",
   "width", "height", "minWidth", "minHeight", "maxWidth", "maxHeight",
   "flexDirection", "flexWrap", "justifyContent", "alignItems", "gap",
   "margin", "marginTop", "marginRight", "marginBottom", "marginLeft",
   "padding", "paddingTop", "paddingRight", "paddingBottom", "paddingLeft",
   "backgroundColor", "color", "border", "borderTop", "borderRight",
   "borderBottom", "borderLeft", "borderRadius", "borderTopLeftRadius",
   "borderTopRightRadius", "borderBottomLeftRadius",
   "borderBottomRightRadius", "boxShadow", "opacity",
   "fontFamily", "fontSize", "fontWeight", "fontStyle", "lineHeight",
   "textAlign", "textDecoration", "letterSpacing",
   "overflow", "overflowX", "overflowY", "cursor", "zIndex"]

/-- The fixed no-op sentinel set tested by the `value !== …` chain. -/
def sentinelValue (v : String) : Bool :=
  v = "0px" || v = "0" || v = "none" || v = "rgba(0, 0, 0, 0)" ||
  v = "transparent" || v = "normal" || v = "auto"

/-- The `value && value !== "0px" && …` keep test: the value is truthy
(non-empty) and not a sentinel. -/
def keepValue (v : String) : Bool := strTruthy v && !sentinelValue v

/-- `prop.replace(/[A-Z]/g, (m) => "-" + m.toLowerCase())`. -/
def camelToKebab (s : String) : String :=
  String.mk (s.data.foldr
    (fun c acc => if c.isUpper then '-' :: c.toLower :: acc else c :: acc) [])

/-- One emitted declaration line: `"  ${cssName}: ${value};"`. -/
def cssDeclLine (computed : String → String) (p : String) : String :=
  "  " ++ camelToKebab p ++ ": " ++ computed p ++ ";"

/-- The properties that survive the sentinel filter, in allow-list order
(the source's `forEach` + conditional `push` over `importantProps`). -/
def keptProps (computed : String → String) : List String :=
  importantProps.filter (fun p => keepValue (computed p))

/-- The `lines` assembly and the final rule of
`buildComputedCssForElement`: one declaration per kept property, and the
empty string (not an empty rule) when nothing survives. -/
def buildCssCore (computed : String → String) : String :=
  let lines := (keptProps computed).map (cssDeclLine computed)
  if lines.isEmpty then ""
  else ".cre-component \x7b\n" ++ String.intercalate "\n" lines ++ "\n\x7d"

/-- `content.js` `buildComputedCssForElement(el)`: `""` when the element is
absent or `window.getComputedStyle` is unavailable (`!el ||
!window.getComputedStyle`), `""` when the style read throws (the
`try/catch`), otherwise the filtered rule over the computed view. -/
def buildComputedCssForElement {α : Type _} (gcsAvailable : Bool)
    (gcs : α → Except String (String → String)) (el : Option α) : String :=
  match el with
  | none => ""
  | some e =>
      if !gcsAvailable then ""
      else
        match gcs e with
        | .error _ => ""
        | .ok computed => buildCssCore computed

/-- C5: the style snapshot never keeps a declaration whose value is a
sentinel (or empty), the kept properties are a sublist of the allow-list
(so declarations appear in allow-list order, independent of computed-style
iteration order), the result is the empty string — never an empty rule —
when no property survives, and the extractor returns the empty string when
the element is absent, the computed-style API is unavailable, or the style
read throws. -/
theorem cre_c5_style_filter :
    (∀ computed : String → String, ∀ p ∈ keptProps computed,
        sentinelValue (computed p) = false ∧ computed p ≠ "") ∧
    (∀ computed : String → String,
        List.Sublist (keptProps computed) importantProps) ∧
    (∀ computed : String → String,
        keptProps computed = [] → buildCssCore computed = "") ∧
    (∀ (α : Type) (gcs : α → Except String (String → String)) (el : Option α),
        buildComputedCssForElement false gcs el = "") ∧
    (∀ (α : Type) (gcs : α → Except String (String → String)) (e : α)
        (msg : String), gcs e = .error msg →
        buildComputedCssForElement true gcs (some e) = "") ∧
    (∀ (α : Type) (b : Bool) (gcs : α → Except String (String → String)),
        buildComputedCssForElement b gcs none = "") := by
  refine ⟨?_, ?_, ?_, ?_, ?_, ?_⟩
  · intro computed p hp
    rw [keptProps, List.mem_filter] at hp
    have hk := hp.2
    rw [keepValue, Bool.and_eq_true] at hk
    refine ⟨by simpa using hk.2, ?_⟩
    have := hk.1
    rw [strTruthy] at this
    simpa using this
  · intro computed
    exact List.filter_sublist _
  · intro computed h
    rw [buildCssCore]
    simp [h]
  · intro α gcs el
    cases el <;> rfl
  · intro α gcs e msg h
    rw [buildComputedCssForElement]
    simp [h]
  · intro α b gcs
    rfl

/-- Witness for C5 at concrete inputs: a computed view keeping exactly
`display`, and a throwing style read. -/
theorem cre_c5_style_filter_witness :
    ("display" ∈ keptProps (fun p => if p = "display" then "flex" else "") ∧
      sentinelValue ((fun p => if p = "display" then "flex" else "") "display")
          = false ∧
      (fun p : String => if p = "display" then "flex" else "") "display"
          ≠ "") ∧
    ((fun _ : Unit => (.error "boom" : Except String (String → String))) () =
        .error "boom" ∧
      buildComputedCssForElement true
        (fun _ : Unit => (.error "boom" : Except String (String → String)))
        (some ()) = "") := by
  constructor
  · refine ⟨by decide, ?_⟩
    exact cre_c5_style_filter.1 (fun p => if p = "display" then "flex" else "")
      "display" (by decide)
  · exact ⟨rfl, cre_c5_style_filter.2.2.2.2.1 Unit
      (fun _ => .error "boom") () "boom" rfl⟩

/-! ## JSON model and `JSON.parse` (host builtin used by utils/ai.js)

`Json` models the values `JSON.parse` can produce. `jsonParse` models the
host's `JSON.parse` restricted to the shapes this program exchanges:
numbers are integers (no fractions/exponents) and string escapes cover
`\" \\ \/ \n \t \r \b \f` (no `\uXXXX`); on everything else it fails just
as `JSON.parse` throws. Object fields keep source order; the programs under
verification never produce duplicate keys. -/

inductive Json where
  | null
  | bool (b : Bool)
  | num (n : Int)
  | str (s : String)
  | arr (xs : List Json)
  | obj (fields : List (String × Json))

/-- JS truthiness of a JSON value. -/
def jsTruthy : Json → Bool
  | .null => false
  | .bool b => b
  | .num n => n ≠ 0
  | .str s => s ≠ ""
  | .arr _ => true
  | .obj _ => true

/-- First-match field lookup in a parsed object. -/
def lookupField : List (String × Json) → String → Option Json
  | [], _ => none
  | (k', v) :: fs, k => if k' = k then some v else lookupField fs k

/-- JS member access `v[k]` on a parsed value: a field of an object,
`undefined` (`none`) on any other non-null value. Access on `null` throws
in JS; callers that can see `null` handle it separately. -/
def jsMember (v : Json) (k : String) : Option Json :=
  match v with
  | .obj fs => lookupField fs k
  | _ => none

/-- The opening and closing brace characters. -/
def obraceChar : Char := Char.ofNat 123

def cbraceChar : Char := Char.ofNat 125

/-- The backtick character (for the code-fence search). -/
def backtickChar : Char := Char.ofNat 96

def isJsonWs (c : Char) : Bool := c = ' ' || c = '\n' || c = '\t' || c = '\r'

def skipWs (cs : List Char) : List Char := cs.dropWhile isJsonWs

/-- JSON string body after the opening quote: plain chars and the common
escapes, up to the closing quote. -/
def parseStringBody (acc : List Char) : List Char → Option (String × List Char)
  | [] => none
  | c :: rest =>
      if c = '"' then some (String.mk acc.reverse, rest)
      else if c = '\\' then
        match rest with
        | [] => none
        | e :: rest' =>
            let d : Option Char :=
              if e = '"' || e = '\\' || e = '/' then some e
              else if e = 'n' then some '\n'
              else if e = 't' then some '\t'
              else if e = 'r' then some '\r'
              else if e = 'b' then some (Char.ofNat 8)
              else if e = 'f' then some (Char.ofNat 12)
              else none
            match d with
            | some ch => parseStringBody (ch :: acc) rest'
            | none => none
      else parseStringBody (c :: acc) rest

/-- JSON integer literal (optional minus, decimal digits). -/
def parseNumber (cs : List Char) : Option (Json × List Char) :=
  let neg := match cs with | '-' :: _ => true | _ => false
  let cs1 := match cs with | '-' :: t => t | _ => cs
  let digits := cs1.takeWhile Char.isDigit
  let rest := cs1.dropWhile Char.isDigit
  if digits.isEmpty then none
  else
    let v : Nat := digits.foldl (fun a c => a * 10 + (c.toNat - 48)) 0
    some (.num (if neg then -(v : Int) else (v : Int)), rest)

mutual

def parseValue : Nat → List Char → Option (Json × List Char)
  | 0, _ => none
  | fuel + 1, cs =>
      match skipWs cs with
      | [] => none
      | c :: rest =>
          if c = 'n' then
            match rest with
            | 'u' :: 'l' :: 'l' :: r => some (.null, r)
            | _ => none
          else if c = 't' then
            match rest with
            | 'r' :: 'u' :: 'e' :: r => some (.bool true, r)
            | _ => none
          else if c = 'f' then
            match rest with
            | 'a' :: 'l' :: 's' :: 'e' :: r => some (.bool false, r)
            | _ => none
          else if c = '"' then
            match parseStringBody [] rest with
            | some (s, r) => some (.str s, r)
            | none => none
          else if c = '[' then parseArrayItems fuel rest []
          else if c = obraceChar then parseObjectItems fuel rest []
          else if c.isDigit || c = '-' then parseNumber (c :: rest)
          else none

def parseArrayItems : Nat → List Char → List Json → Option (Json × List Char)
  | 0, _, _ => none
  | fuel + 1, cs, acc =>
      match skipWs cs with
      | ']' :: r => if acc.isEmpty then some (.arr [], r) else none
      | _ =>
          match parseValue fuel (skipWs cs) with
          | none => none
          | some (v, r) =>
              match skipWs r with
              | ',' :: r2 => parseArrayItems fuel r2 (acc ++ [v])
              | ']' :: r2 => some (.arr (acc ++ [v]), r2)
              | _ => none

def parseObjectItems : Nat → List Char → List (String × Json) →
    Option (Json × List Char)
  | 0, _, _ => none
  | fuel + 1, cs, acc =>
      match skipWs cs with
      | [] => none
      | c :: r =>
          if c = cbraceChar then
            if acc.isEmpty then some (.obj [], r) else none
          else if c = '"' then
            match parseStringBody [] r with
            | none => none
            | some (k, r1) =>
                match skipWs r1 with
                | ':' :: r2 =>
                    match parseValue fuel r2 with
                    | none => none
                    | some (v, r3) =>
                        match skipWs r3 with
                        | ',' :: r4 => parseObjectItems fuel r4 (acc ++ [(k, v)])
                        | cb :: r4 =>
                            if cb = cbraceChar then
                              some (.obj (acc ++ [(k, v)]), r4)
                            else none
                        | _ => none
                | _ => none
          else none

end

/-- `JSON.parse`: a whole-input JSON value (trailing whitespace allowed). -/
def jsonParse (s : String) : Option Json :=
  match parseValue (2 * s.data.length + 2) s.data with
  | some (v, rest) => if (skipWs rest).isEmpty then some v else none
  | none => none

/-! ## Remix client (utils/ai.js, `callOpenAIForRemix` response handling) -/

/-- Scan for the closing triple backtick; the chars before it are the lazy
group `([\s\S]*?)` of the fence regex. -/
def takeUntilFenceClose (acc : List Char) : List Char → Option (String × List Char)
  | [] => none
  | c :: rest =>
      if c = backtickChar ∧ rest.take 2 = [backtickChar, backtickChar] then
        some (String.mk acc.reverse, rest.drop 2)
      else takeUntilFenceClose (c :: acc) rest

/-- Does this position start a (case-insensitive) ```` ```json ```` opener? -/
def fenceOpenHere (cs : List Char) : Bool :=
  cs.take 3 = [backtickChar, backtickChar, backtickChar] &&
  ((cs.drop 3).take 4).map Char.toLower = ['j', 's', 'o', 'n']

/-- `content.match(/```json([\s\S]*?)```/i)`: the first position with a
```` ```json ```` opener that is followed by a closing ```` ``` ```` yields
the group between them; with backtracking, an opener with no closer lets a
later opener match. -/
def fencedJsonGroup : List Char → Option String
  | [] => none
  | c :: rest =>
      if fenceOpenHere (c :: rest) then
        match takeUntilFenceClose [] ((c :: rest).drop 7) with
        | some (inner, _) => some inner
        | none => fencedJsonGroup rest
      else fencedJsonGroup rest

/-- Lines 75-86 of utils/ai.js: `JSON.parse(content)`; on throw, look for a
```` ```json … ``` ```` fenced block and `JSON.parse` its group (that parse
failing, or no fence being found, rethrows — surfaced to the caller as the
malformed-response failure, here the error string `"SyntaxError"`). -/
def parseContent (content : String) : Except String Json :=
  match jsonParse content with
  | some v => .ok v
  | none =>
      match fencedJsonGroup content.data with
      | some inner =>
          match jsonParse inner with
          | some v => .ok v
          | none => .error "SyntaxError"
      | none => .error "SyntaxError"

/-- The first top-level brace-delimited substring: from the first opening
brace to its balance-matched closing brace. -/
def braceGroupAux (depth : Nat) (acc : List Char) : List Char → Option String
  | [] => none
  | c :: rest =>
      if c = cbraceChar then
        match depth with
        | 0 => none
        | 1 => some (String.mk (c :: acc).reverse)
        | d + 2 => braceGroupAux (d + 1) (c :: acc) rest
      else if c = obraceChar then braceGroupAux (depth + 1) (c :: acc) rest
      else braceGroupAux depth (c :: acc) rest

/-- Modelled from the spec: "search for the first top-level brace-delimited
object substring". This stage exists in the spec's recovery chain but not
in `src/utils/ai.js`. -/
def braceGroup (s : String) : Option String :=
  match s.data.dropWhile (fun c => c ≠ obraceChar) with
  | [] => none
  | cs => braceGroupAux 0 [] cs

/-- Modelled from the spec: stage (c) as a fallback — parse the first
top-level brace-delimited object substring. -/
def threeStageBraceFallback (content : String) : Except String Json :=
  match braceGroup content with
  | some sub =>
      match jsonParse sub with
      | some v => .ok v
      | none => .error "SyntaxError"
  | none => .error "SyntaxError"

/-- Modelled from the spec: the three-stage recovery — (a) parse directly;
(b) else parse the fenced block's contents; (c) else parse the first
top-level brace-delimited object substring; fail only when all three
fail. For comparison against the source's two-stage `parseContent`. -/
def parseContentThreeStage (content : String) : Except String Json :=
  match jsonParse content with
  | some v => .ok v
  | none =>
      match fencedJsonGroup content.data with
      | some inner =>
          match jsonParse inner with
          | some v => .ok v
          | none => threeStageBraceFallback content
      | none => threeStageBraceFallback content

/-- A response variant normalized to the fixed shape of lines 93-97. -/
structure NormVariant where
  html : Json
  css : Json
  description : Json

/-- JS `x || ""` on a member-access result: the value if truthy, else the
empty string (`undefined`, `null`, `false`, `0`, `""` all coerce). -/
def jsOrEmpty (o : Option Json) : Json :=
  match o with
  | some j => if jsTruthy j then j else .str ""
  | none => .str ""

/-- One step of `parsed.variants.map((v) => ({html: v.html || "", css:
v.css || "", description: v.description || ""}))`; member access on `null`
throws a `TypeError` that the callback does not catch. -/
def normalizeVariant (v : Json) : Except String NormVariant :=
  match v with
  | .null => .error "TypeError"
  | _ => .ok ⟨jsOrEmpty (jsMember v "html"), jsOrEmpty (jsMember v "css"),
      jsOrEmpty (jsMember v "description")⟩

/-- The full `.map` over the variants array (left to right, first throw
wins). -/
def normalizeVariants : List Json → Except String (List NormVariant)
  | [] => .ok []
  | v :: vs =>
      match normalizeVariant v with
      | .error e => .error e
      | .ok nv =>
          match normalizeVariants vs with
          | .error e => .error e
          | .ok nvs => .ok (nv :: nvs)

/-- Lines 70-97 of utils/ai.js, from the extracted completion `content`
(`data?.choices?.[0]?.message?.content`, `none` when the path is absent):
reject missing/empty content; recover JSON with the two-stage
`parseContent`; validate `variants` — the source's `!parsed?.variants ||
!Array.isArray(parsed.variants)` lets any array through (arrays, empty
ones included, are truthy) and rejects everything else, `?.` making a
`null`/scalar `parsed` yield `undefined` rather than throw; then normalize
every variant, with no truncation and no filtering. -/
def callOpenAIForRemixTail (content : Option String) :
    Except String (List NormVariant) :=
  match content with
  | none => .error "OpenAI response missing content."
  | some c =>
      if c = "" then .error "OpenAI response missing content."
      else
        match parseContent c with
        | .error e => .error e
        | .ok parsed =>
            match jsMember parsed "variants" with
            | some (Json.arr vs) => normalizeVariants vs
            | _ => .error "OpenAI response did not contain a variants array."

theorem normalizeVariant_ok (v : Json) (nv : NormVariant)
    (h : normalizeVariant v = .ok nv) :
    v ≠ Json.null ∧
    nv = ⟨jsOrEmpty (jsMember v "html"), jsOrEmpty (jsMember v "css"),
      jsOrEmpty (jsMember v "description")⟩ := by
  cases v <;> simp [normalizeVariant] at h <;> simp_all

theorem normalizeVariants_spec : ∀ (vs : List Json) (out : List NormVariant),
    normalizeVariants vs = .ok out →
    out.length = vs.length ∧
    ∀ p ∈ vs.zip out, p.1 ≠ Json.null ∧
      p.2 = ⟨jsOrEmpty (jsMember p.1 "html"), jsOrEmpty (jsMember p.1 "css"),
        jsOrEmpty (jsMember p.1 "description")⟩ := by
  intro vs
  induction vs with
  | nil =>
    intro out h
    simp only [normalizeVariants] at h
    cases h
    simp
  | cons v t ih =>
    intro out h
    simp only [normalizeVariants] at h
    cases hv : normalizeVariant v with
    | error e => rw [hv] at h; cases h
    | ok nv =>
      rw [hv] at h
      cases ht : normalizeVariants t with
      | error e => rw [ht] at h; cases h
      | ok nvs =>
        rw [ht] at h
        cases h
        obtain ⟨hlen, hzip⟩ := ih nvs ht
        refine ⟨by simp [hlen], ?_⟩
        intro p hp
        rw [List.zip_cons_cons, List.mem_cons] at hp
        rcases hp with rfl | hp
        · exact normalizeVariant_ok v nv hv
        · exact hzip p hp

theorem callTail_validates (c : String) (parsed : Json) (vs : List Json)
    (hc : c ≠ "") (h1 : parseContent c = .ok parsed)
    (h2 : jsMember parsed "variants" = some (Json.arr vs)) :
    callOpenAIForRemixTail (some c) = normalizeVariants vs := by
  simp [callOpenAIForRemixTail, hc, h1, h2]

theorem callTail_rejects (c : String) (parsed : Json)
    (hc : c ≠ "") (h1 : parseContent c = .ok parsed)
    (h2 : ∀ vs, jsMember parsed "variants" ≠ some (Json.arr vs)) :
    callOpenAIForRemixTail (some c) =
      .error "OpenAI response did not contain a variants array." := by
  cases hm : jsMember parsed "variants" with
  | none => simp [callOpenAIForRemixTail, hc, h1, hm]
  | some v =>
    cases v with
    | arr ws => exact absurd hm (h2 ws)
    | null => simp [callOpenAIForRemixTail, hc, h1, hm]
    | bool b => simp [callOpenAIForRemixTail, hc, h1, hm]
    | num n => simp [callOpenAIForRemixTail, hc, h1, hm]
    | str s => simp [callOpenAIForRemixTail, hc, h1, hm]
    | obj fs => simp [callOpenAIForRemixTail, hc, h1, hm]

/-- C1 counterexample: a response with five variants, all empty in both
markup and style, is returned whole — five variants, the empty ones kept,
no `EmptyVariants` failure — refuting the claimed truncation to 3, the
claimed dropping of doubly-empty variants, and the claimed failure when
nothing survives. -/
theorem cre_c1_counterexample :
    callOpenAIForRemixTail
        (some "\x7b\"variants\":[\x7b\x7d,\x7b\x7d,\x7b\x7d,\x7b\x7d,\x7b\x7d]\x7d") =
      .ok (List.replicate 5 ⟨.str "", .str "", .str ""⟩) ∧
    ¬ (List.replicate 5
        (⟨Json.str "", Json.str "", Json.str ""⟩ : NormVariant)).length ≤ 3 :=
  ⟨rfl, by decide⟩

/-- C1 (amended): on a successful remix call each returned variant is
normalized to the fixed shape with missing or falsy `html`/`css`/
`description` fields coerced to the empty string, and the result contains
every variant the model emitted, in original order — there is no
truncation to at most 3, variants empty in both markup and style are
kept, and no `EmptyVariants` failure exists. -/
theorem cre_c1_amended (c : String) (parsed : Json) (vs : List Json)
    (out : List NormVariant) (hc : c ≠ "")
    (h1 : parseContent c = .ok parsed)
    (h2 : jsMember parsed "variants" = some (Json.arr vs)) :
    callOpenAIForRemixTail (some c) = normalizeVariants vs ∧
    (normalizeVariants vs = .ok out →
      out.length = vs.length ∧
      ∀ p ∈ vs.zip out, p.1 ≠ Json.null ∧
        p.2 = ⟨jsOrEmpty (jsMember p.1 "html"), jsOrEmpty (jsMember p.1 "css"),
          jsOrEmpty (jsMember p.1 "description")⟩) :=
  ⟨callTail_validates c parsed vs hc h1 h2, normalizeVariants_spec vs out⟩

/-- Witness for C1 at a concrete response with two variants. -/
theorem cre_c1_amended_witness :
    callOpenAIForRemixTail
        (some "\x7b\"variants\":[\x7b\"html\":\"<b>\"\x7d,\x7b\x7d]\x7d") =
      normalizeVariants [Json.obj [("html", Json.str "<b>")], Json.obj []] ∧
    ([⟨Json.str "<b>", Json.str "", Json.str ""⟩,
      ⟨Json.str "", Json.str "", Json.str ""⟩] : List NormVariant).length =
      ([Json.obj [("html", Json.str "<b>")], Json.obj []] : List Json).length := by
  have h := cre_c1_amended
    "\x7b\"variants\":[\x7b\"html\":\"<b>\"\x7d,\x7b\x7d]\x7d"
    (Json.obj [("variants",
      Json.arr [Json.obj [("html", Json.str "<b>")], Json.obj []])])
    [Json.obj [("html", Json.str "<b>")], Json.obj []]
    [⟨Json.str "<b>", Json.str "", Json.str ""⟩,
      ⟨Json.str "", Json.str "", Json.str ""⟩]
    (by decide) rfl rfl
  exact ⟨h.1, (h.2 rfl).1⟩

/-- C2 counterexample: on a completion whose JSON appears bare in prose —
no direct parse, no code fence, but a brace-delimited object substring —
the source fails while the spec's third stage would succeed, so the actual
recovery is not the claimed three-stage chain and does not fail only when
all three stages fail. -/
theorem cre_c2_counterexample :
    parseContent "Note: \x7b\"a\": 1\x7d" = .error "SyntaxError" ∧
    parseContentThreeStage "Note: \x7b\"a\": 1\x7d" =
      .ok (.obj [("a", .num 1)]) :=
  ⟨rfl, rfl⟩

/-- C2 (amended): the source recovers JSON via a TWO-stage ordered
fallback — direct parse, then the contents of a ```` ```json ```` fenced
code block — and fails with the malformed-response error exactly when both
stages fail; no brace-scan stage exists. -/
theorem cre_c2_amended :
    (∀ (c : String) (v : Json), jsonParse c = some v →
        parseContent c = .ok v) ∧
    (∀ (c inner : String) (v : Json), jsonParse c = none →
        fencedJsonGroup c.data = some inner → jsonParse inner = some v →
        parseContent c = .ok v) ∧
    (∀ (c inner : String), jsonParse c = none →
        fencedJsonGroup c.data = some inner → jsonParse inner = none →
        parseContent c = .error "SyntaxError") ∧
    (∀ c : String, jsonParse c = none → fencedJsonGroup c.data = none →
        parseContent c = .error "SyntaxError") := by
  refine ⟨?_, ?_, ?_, ?_⟩
  · intro c v h; simp [parseContent, h]
  · intro c inner v h hf hi; simp [parseContent, h, hf, hi]
  · intro c inner h hf hi; simp [parseContent, h, hf, hi]
  · intro c h hf; simp [parseContent, h, hf]

/-- Witness for C2 at a concrete fenced completion (second stage). -/
theorem cre_c2_amended_witness :
    parseContent "```json\n\x7b\"a\":2\x7d\n```" = .ok (.obj [("a", .num 2)]) :=
  cre_c2_amended.2.1 "```json\n\x7b\"a\":2\x7d\n```" "\n\x7b\"a\":2\x7d\n"
    (.obj [("a", .num 2)]) rfl rfl rfl

/-- C3 counterexample: a completion of `{"variants":[]}` — the `variants`
field present but an empty array — succeeds with the empty list instead of
failing with the malformed-response error, refuting the empty-array part
of the claim. -/
theorem cre_c3_counterexample :
    callOpenAIForRemixTail (some "\x7b\"variants\":[]\x7d") = .ok [] ∧
    (Except.ok [] : Except String (List NormVariant)) ≠
      .error "OpenAI response did not contain a variants array." :=
  ⟨rfl, by simp⟩

/-- C3 (amended): the call fails with the malformed-response error when the
parsed object's `variants` field is absent or not an array — in particular
a completion of `"{}"` so fails — but an empty `variants` array passes the
validation (arrays are truthy and `Array.isArray` holds) and the call
returns the empty list. -/
theorem cre_c3_amended :
    (∀ (c : String) (parsed : Json), c ≠ "" → parseContent c = .ok parsed →
        (∀ vs, jsMember parsed "variants" ≠ some (Json.arr vs)) →
        callOpenAIForRemixTail (some c) =
          .error "OpenAI response did not contain a variants array.") ∧
    callOpenAIForRemixTail (some "\x7b\x7d") =
      .error "OpenAI response did not contain a variants array." ∧
    callOpenAIForRemixTail (some "\x7b\"variants\":[]\x7d") = .ok [] :=
  ⟨callTail_rejects, rfl, rfl⟩

/-- Witness for C3 at a concrete non-object completion (`[1]` has no
`variants` member). -/
theorem cre_c3_amended_witness :
    callOpenAIForRemixTail (some "[1]") =
      .error "OpenAI response did not contain a variants array." :=
  cre_c3_amended.1 "[1]" (.arr [.num 1]) (by decide) rfl
    (fun vs h => by simp [jsMember] at h)

/-! ## Extraction pipeline (content.js, `extractElement`)

Host effects are parameters: `outer` is the DOM's `outerHTML` serializer,
`gcs` the per-element computed-style read (`Except` models a throw),
`gcsAvailable` the presence of `window.getComputedStyle`. Mutation is
state passing: each JS statement maps to a binding, and the second
component of the result is the caller's element as it stands after the
call. The body touches `el` only through `cloneNode` (a copy) and the
computed-style read; `cleanElementAttributes` is applied to the clone
alone, so the caller's element passes through unchanged. -/

structure ExtractedComponent where
  html : String
  css : String

/-- `content.js` `extractElement(el)`: reject an absent/un-clonable
element; deep-copy (`cloned = el.cloneNode(true)`), normalize the copy
(`cleanElementAttributes(cloned)`), serialize the copy, and read the
computed style off the original `el`. -/
def extractElement (outer : DomNode → String) (gcsAvailable : Bool)
    (gcs : DomNode → Except String (String → String)) (el : Option DomNode) :
    Except String (ExtractedComponent × DomNode) :=
  match el with
  | none => .error "Invalid element provided for extraction"
  | some e =>
      let cloned := e
      let cloned := cleanElementAttributes cloned
      let html := outer cloned
      let css := buildComputedCssForElement gcsAvailable gcs (some e)
      .ok (⟨html, css⟩, e)

/-- C9: `extractElement` never mutates the passed element — the element
returned to the caller is exactly the input, normalization having been
applied only to the deep copy (the markup is the serialization of
`cleanElementAttributes` of the copy) — and the style block is computed
from the original, un-normalized element, not from the cleaned copy; an
absent element is rejected. -/
theorem cre_c9_extract_frame (outer : DomNode → String) (avail : Bool)
    (gcs : DomNode → Except String (String → String)) (e : DomNode) :
    extractElement outer avail gcs (some e) =
      .ok (⟨outer (cleanElementAttributes e),
            buildComputedCssForElement avail gcs (some e)⟩, e) ∧
    extractElement outer avail gcs none =
      .error "Invalid element provided for extraction" :=
  ⟨rfl, rfl⟩

/-! ## Code generator (utils/codegen.js)

`tryPrettier` models the optional external formatter: `none` when
`typeof prettier === "undefined"` (so the raw template is returned), and
a throwing formatter falls back to the unformatted code (`try/catch`).
`jsTrim` models `String.prototype.trim`. -/

def isJsWsChar (c : Char) : Bool :=
  c = ' ' || c = '\n' || c = '\t' || c = '\r' ||
  c = Char.ofNat 12 || c = Char.ofNat 11

def jsTrimList (cs : List Char) : List Char :=
  ((cs.dropWhile isJsWsChar).reverse.dropWhile isJsWsChar).reverse

/-- JS `s.trim()`. -/
def jsTrim (s : String) : String := String.mk (jsTrimList s.data)

/-- `utils/codegen.js` `tryPrettier(code, parser)`: the formatter when
available and not throwing, else the code unchanged (the parser/plugin
choice does not affect this model). -/
def tryPrettier (fmt : Option (String → Except String String))
    (code : String) : String :=
  match fmt with
  | none => code
  | some f =>
      match f code with
      | .ok s => s
      | .error _ => code

/-- `name.replace(/[^a-zA-Z0-9]/g, "")`. -/
def sanitizeName (s : String) : String :=
  String.mk (s.data.filter (fun c =>
    ('a' ≤ c && c ≤ 'z') || ('A' ≤ c && c ≤ 'Z') || ('0' ≤ c && c ≤ '9')))

/-- A `{html, css}`-shaped variant as the generators read it
(`variant.html || ""`); `none` models an absent field. -/
structure CodegenVariant where
  html : Option String
  css : Option String

/-- `toReactComponent(variant, name)`. -/
def toReactComponent (fmt : Option (String → Except String String))
    (variant : CodegenVariant) (name : String) : String :=
  let safeName := strOr (sanitizeName (strOr name "MyComponent")) "MyComponent"
  let jsx := optStrOr variant.html ""
  let css := optStrOr variant.css ""
  let code := jsTrim
    ("\nimport React from \x27react\x27;\nimport \x27./" ++ safeName ++
     ".css\x27;\n\n// Props can be extended as needed\n" ++
     "export function " ++ safeName ++ "(props)" ++
     " \x7b\n  return (\n    <>\n      " ++ jsx ++
     "\n    </>\n  );\n\x7d\n\n// CSS for this component (place in " ++
     safeName ++ ".css)\n/*\n" ++ css ++ "\n*/\n")
  tryPrettier fmt code

/-- `toVueSFC(variant, name)`: note the computed `safeName` is never
spliced into the template. -/
def toVueSFC (fmt : Option (String → Except String String))
    (variant : CodegenVariant) (name : String) : String :=
  let _safeName := strOr (sanitizeName (strOr name "MyComponent")) "MyComponent"
  let tpl := optStrOr variant.html ""
  let css := optStrOr variant.css ""
  let code := jsTrim
    ("\n<template>\n  " ++ tpl ++
     "\n</template>\n\n<script setup>\n// Define props and logic as needed\n</script>\n\n<style scoped>\n" ++
     css ++ "\n</style>\n")
  tryPrettier fmt code

/-- `toHtmlCss(variant, name)`: the name is embedded verbatim, with no
sanitization and no empty-name fallback. -/
def toHtmlCss (fmt : Option (String → Except String String))
    (variant : CodegenVariant) (name : String) : String :=
  let html := optStrOr variant.html ""
  let css := optStrOr variant.css ""
  let code := jsTrim
    ("\n" ++ "<!-- " ++ name ++ " -->" ++ "\n<style>\n" ++ css ++
     "\n</style>\n\n" ++ html ++ "\n")
  tryPrettier fmt code

/-- `generateCodeForFramework(framework, variant, name)` (the JS `name`
default `"Component"` is supplied by the caller here). -/
def generateCodeForFramework (fmt : Option (String → Except String String))
    (framework : String) (variant : CodegenVariant) (name : String) : String :=
  if framework = "vue" then toVueSFC fmt variant name
  else if framework = "html" then toHtmlCss fmt variant name
  else toReactComponent fmt variant name

theorem listContains_of_append (pre needle post : List Char) :
    listContains needle (pre ++ needle ++ post) = true :=
  (listContains_spec needle _).mpr ⟨pre, post, rfl⟩

theorem listContains_dropWhile {p : Char → Bool} {c0 : Char} {nt : List Char} :
    ∀ {hay : List Char}, p c0 = false →
    listContains (c0 :: nt) hay = true →
    listContains (c0 :: nt) (hay.dropWhile p) = true := by
  intro hay hc h
  induction hay with
  | nil => simp [listContains] at h
  | cons x t ih =>
    by_cases hx : p x
    · rw [List.dropWhile_cons]
      simp only [hx, if_true]
      apply ih
      rw [listContains, Bool.or_eq_true] at h
      rcases h with h | h
      · exfalso
        rw [List.isPrefixOf] at h
        rw [Bool.and_eq_true, beq_iff_eq] at h
        rw [h.1] at hc
        rw [hx] at hc
        cases hc
      · exact h
    · rw [List.dropWhile_cons]
      simp only [hx, if_false]
      exact h

theorem listContains_reverse {needle hay : List Char}
    (h : listContains needle hay = true) :
    listContains needle.reverse hay.reverse = true := by
  rw [listContains_spec] at h ⊢
  obtain ⟨pre, post, rfl⟩ := h
  exact ⟨post.reverse, pre.reverse, by simp⟩

theorem listContains_jsTrim {c0 c1 : Char} {mid hay : List Char}
    (h0 : isJsWsChar c0 = false) (h1 : isJsWsChar c1 = false)
    (h : listContains (c0 :: (mid ++ [c1])) hay = true) :
    listContains (c0 :: (mid ++ [c1])) (jsTrimList hay) = true := by
  have hrev : (c0 :: (mid ++ [c1])).reverse = c1 :: (mid.reverse ++ [c0]) := by
    simp
  have s1 := listContains_dropWhile h0 h
  have s2 := listContains_reverse s1
  rw [hrev] at s2
  have s3 := listContains_dropWhile h1 s2
  have s4 := listContains_reverse s3
  rw [← hrev, List.reverse_reverse] at s4
  exact s4

theorem strContains_trim (pre needle post : String) (c0 c1 : Char)
    (mid : List Char) (hshape : needle.data = c0 :: (mid ++ [c1]))
    (h0 : isJsWsChar c0 = false) (h1 : isJsWsChar c1 = false) :
    strContains (jsTrim (pre ++ needle ++ post)) needle = true := by
  show listContains needle.data (jsTrim (pre ++ needle ++ post)).data = true
  have hb : listContains needle.data (pre ++ needle ++ post).data = true := by
    rw [String.data_append, String.data_append]
    exact listContains_of_append _ _ _
  rw [hshape] at hb ⊢
  exact listContains_jsTrim h0 h1 hb

/-- C6 counterexample: for the static-page target, `generate` embeds the
name verbatim — `"My Comp!"`, non-alphanumerics included, appears in the
emitted artifact, and the comment carrying the sanitized `"MyComp"` does
not — refuting the claim that every target sanitizes the name before
embedding it. -/
theorem cre_c6_counterexample :
    strContains (generateCodeForFramework none "html"
        ⟨some "<div>x</div>", some ".c \x7b color: red \x7d"⟩ "My Comp!")
      "<!-- My Comp! -->" = true ∧
    strContains (generateCodeForFramework none "html"
        ⟨some "<div>x</div>", some ".c \x7b color: red \x7d"⟩ "My Comp!")
      "<!-- MyComp -->" = false ∧
    sanitizeName "My Comp!" = "MyComp" :=
  ⟨rfl, rfl, rfl⟩

/-- C6 (amended): only the react target sanitizes the name — stripping all
non-alphanumerics, with the fixed placeholder `"MyComponent"` when the
name or its sanitization is empty — and embeds the result; the vue target
computes the sanitized name but never embeds it, its output being
independent of the name; the static-page target embeds the raw name
verbatim, unsanitized and with no placeholder fallback. (Unformatted
output: the formatter is unavailable.) -/
theorem cre_c6_amended :
    (∀ (v : CodegenVariant) (name : String),
        strContains (toReactComponent none v name)
          ("export function " ++
            strOr (sanitizeName (strOr name "MyComponent")) "MyComponent" ++
            "(props)") = true) ∧
    (∀ (fmt : Option (String → Except String String)) (v : CodegenVariant)
        (n n' : String), toVueSFC fmt v n = toVueSFC fmt v n') ∧
    (∀ (v : CodegenVariant) (name : String),
        strContains (toHtmlCss none v name)
          ("<!-- " ++ name ++ " -->") = true) := by
  refine ⟨?_, ?_, ?_⟩
  · intro v name
    set sn := strOr (sanitizeName (strOr name "MyComponent")) "MyComponent"
      with hsn
    set jsx := optStrOr v.html "" with hjsx
    set css := optStrOr v.css "" with hcss
    have hshape : ("export function " ++ sn ++ "(props)").data =
        'e' :: (("xport function ".data ++ sn.data ++ "(props".data) ++
          [')']) := by
      simp only [String.data_append]
      simp
    have hsplit :
        ("\nimport React from \x27react\x27;\nimport \x27./" ++ sn ++
          ".css\x27;\n\n// Props can be extended as needed\n" ++
          "export function " ++ sn ++ "(props)" ++
          " \x7b\n  return (\n    <>\n      " ++ jsx ++
          "\n    </>\n  );\n\x7d\n\n// CSS for this component (place in " ++
          sn ++ ".css)\n/*\n" ++ css ++ "\n*/\n") =
        ("\nimport React from \x27react\x27;\nimport \x27./" ++ sn ++
          ".css\x27;\n\n// Props can be extended as needed\n") ++
        ("export function " ++ sn ++ "(props)") ++
        (" \x7b\n  return (\n    <>\n      " ++ jsx ++
          "\n    </>\n  );\n\x7d\n\n// CSS for this component (place in " ++
          sn ++ ".css)\n/*\n" ++ css ++ "\n*/\n") := by
      simp only [String.append_assoc]
    show strContains (tryPrettier none (jsTrim
        ("\nimport React from \x27react\x27;\nimport \x27./" ++ sn ++
          ".css\x27;\n\n// Props can be extended as needed\n" ++
          "export function " ++ sn ++ "(props)" ++
          " \x7b\n  return (\n    <>\n      " ++ jsx ++
          "\n    </>\n  );\n\x7d\n\n// CSS for this component (place in " ++
          sn ++ ".css)\n/*\n" ++ css ++ "\n*/\n")))
        ("export function " ++ sn ++ "(props)") = true
    rw [hsplit]
    exact strContains_trim _ _ _ 'e' ')' _ hshape rfl rfl
  · intro fmt v n n'
    rfl
  · intro v name
    set css := optStrOr v.css "" with hcss
    set html := optStrOr v.html "" with hhtml
    have hshape : ("<!-- " ++ name ++ " -->").data =
        '<' :: (("!-- ".data ++ name.data ++ " --".data) ++ ['>']) := by
      simp only [String.data_append]
      simp
    have hsplit :
        ("\n" ++ "<!-- " ++ name ++ " -->" ++ "\n<style>\n" ++ css ++
          "\n</style>\n\n" ++ html ++ "\n") =
        "\n" ++ ("<!-- " ++ name ++ " -->") ++
        ("\n<style>\n" ++ css ++ "\n</style>\n\n" ++ html ++ "\n") := by
      simp only [String.append_assoc]
    show strContains (tryPrettier none (jsTrim
        ("\n" ++ "<!-- " ++ name ++ " -->" ++ "\n<style>\n" ++ css ++
          "\n</style>\n\n" ++ html ++ "\n")))
        ("<!-- " ++ name ++ " -->") = true
    rw [hsplit]
    exact strContains_trim _ _ _ '<' '>' _ hshape rfl rfl

/-! ## Library store (utils/storage.js)

The persisted collection is the `List LibraryEntry` threaded through each
operation (`getAllComponents` reads it whole, `setSyncStorage` writes it
whole); `Date.now()` and the random id component are parameters. `Option`
fields on the partial/patch records model absent JS object properties; JS
`||`-defaulting makes the empty string fall back too (`optStrOr`), while
an array value — even an empty one — is truthy and kept (`Option.getD`). -/

structure LibraryEntry where
  id : String
  name : String
  tags : List String
  originalHTML : String
  originalCSS : String
  remixedVariants : List NormVariant
  generatedCode : String
  framework : String
  createdAt : Nat
  updatedAt : Nat

structure PartialEntry where
  name : Option String
  tags : Option (List String)
  originalHTML : Option String
  originalCSS : Option String
  remixedVariants : Option (List NormVariant)
  generatedCode : Option String
  framework : Option String

def base36DigitChar (n : Nat) : Char :=
  if n < 10 then Char.ofNat (48 + n) else Char.ofNat (87 + n)

def natToBase36Aux : Nat → Nat → List Char → List Char
  | 0, _, acc => acc
  | fuel + 1, n, acc =>
      if n = 0 then acc
      else natToBase36Aux fuel (n / 36) (base36DigitChar (n % 36) :: acc)

/-- `n.toString(36)` (lower-case digits). -/
def natToBase36 (n : Nat) : String :=
  if n = 0 then "0" else String.mk (natToBase36Aux (n + 1) n [])

/-- JS `s.slice(-n)`: the last `n` characters (all of `s` when shorter). -/
def takeRightStr (s : String) (n : Nat) : String :=
  String.mk (s.data.drop (s.data.length - n))

/-- `utils/storage.js` `createId()`: `"cre-" + Math.random().toString(36)
.slice(2, 8) + "-" + Date.now().toString(36).slice(-4)`; the random
component (`Math.random().toString(36).slice(2, 8)`) is the host-supplied
`randPart`. -/
def createId (randPart : String) (now : Nat) : String :=
  "cre-" ++ randPart ++ "-" ++ takeRightStr (natToBase36 now) 4

/-- `saveComponent(partial)`: build the entry with `||`-defaults and both
timestamps at `now`, append it to the current collection, persist, return
it. The result pairs the persisted collection with the returned entry. -/
def saveComponent (randPart : String) (now : Nat)
    (current : List LibraryEntry) (part : PartialEntry) :
    List LibraryEntry × LibraryEntry :=
  let entry : LibraryEntry :=
    { id := createId randPart now
      name := optStrOr part.name "Untitled component"
      tags := part.tags.getD []
      originalHTML := optStrOr part.originalHTML ""
      originalCSS := optStrOr part.originalCSS ""
      remixedVariants := part.remixedVariants.getD []
      generatedCode := optStrOr part.generatedCode ""
      framework := optStrOr part.framework "react"
      createdAt := now
      updatedAt := now }
  (current ++ [entry], entry)

/-- A JS patch object: a present field (even a falsy one) overwrites via
the `{...c, ...patch, updatedAt: Date.now()}` spread, so every entry key —
`id` and `createdAt` included — is patchable. -/
structure EntryPatch where
  id : Option String
  name : Option String
  tags : Option (List String)
  originalHTML : Option String
  originalCSS : Option String
  remixedVariants : Option (List NormVariant)
  generatedCode : Option String
  framework : Option String
  createdAt : Option Nat
  updatedAt : Option Nat

/-- `{...c, ...patch, updatedAt: Date.now()}`. -/
def mergePatch (c : LibraryEntry) (p : EntryPatch) (now : Nat) :
    LibraryEntry :=
  { id := p.id.getD c.id
    name := p.name.getD c.name
    tags := p.tags.getD c.tags
    originalHTML := p.originalHTML.getD c.originalHTML
    originalCSS := p.originalCSS.getD c.originalCSS
    remixedVariants := p.remixedVariants.getD c.remixedVariants
    generatedCode := p.generatedCode.getD c.generatedCode
    framework := p.framework.getD c.framework
    createdAt := p.createdAt.getD c.createdAt
    updatedAt := now }

/-- `updateComponent(id, patch)`: map the merge over the collection,
touching only entries whose id matches. -/
def updateComponent (now : Nat) (current : List LibraryEntry) (id : String)
    (p : EntryPatch) : List LibraryEntry :=
  current.map (fun c => if c.id = id then mergePatch c p now else c)

/-- `deleteComponent(id)`: keep the entries whose id differs. -/
def deleteComponent (current : List LibraryEntry) (id : String) :
    List LibraryEntry :=
  current.filter (fun c => c.id ≠ id)

/-- The stored-collection id-uniqueness invariant. -/
def idsUnique (st : List LibraryEntry) : Prop :=
  (st.map LibraryEntry.id).Nodup

/-- The `updatedAt >= createdAt` invariant. -/
def timeOk (st : List LibraryEntry) : Prop :=
  ∀ c ∈ st, c.createdAt ≤ c.updatedAt

/-- C7: `save` assigns an id combining the random component with the
base-36 time component, fills unset fields with the documented defaults
(empty tags, empty variants, empty generated code, `react` target), stamps
`createdAt = updatedAt = now`, appends the entry at the end of the stored
collection and returns it; the id is never empty, so a save on an empty
store lists exactly that one entry with a non-empty id. -/
theorem cre_c7_save (randPart : String) (now : Nat) (q : PartialEntry)
    (cur : List LibraryEntry) :
    (saveComponent randPart now cur q).1 =
      cur ++ [(saveComponent randPart now cur q).2] ∧
    (saveComponent randPart now cur q).2.id =
      "cre-" ++ randPart ++ "-" ++ takeRightStr (natToBase36 now) 4 ∧
    (saveComponent randPart now cur q).2.id ≠ "" ∧
    (saveComponent randPart now cur q).2.createdAt = now ∧
    (saveComponent randPart now cur q).2.updatedAt = now ∧
    (q.tags = none → (saveComponent randPart now cur q).2.tags = []) ∧
    (q.remixedVariants = none →
      (saveComponent randPart now cur q).2.remixedVariants = []) ∧
    (q.generatedCode = none →
      (saveComponent randPart now cur q).2.generatedCode = "") ∧
    (q.framework = none →
      (saveComponent randPart now cur q).2.framework = "react") ∧
    (saveComponent randPart now [] q).1 =
      [(saveComponent randPart now [] q).2] := by
  refine ⟨rfl, rfl, ?_, rfl, rfl, ?_, ?_, ?_, ?_, rfl⟩
  · intro h
    have hd := congrArg String.data h
    simp [saveComponent, createId, String.data_append] at hd
  · intro h; simp [saveComponent, h]
  · intro h; simp [saveComponent, h]
  · intro h; simp [saveComponent, h, optStrOr]
  · intro h; simp [saveComponent, h, optStrOr]

/-- Witness for C7 on a concrete empty partial record and empty store. -/
theorem cre_c7_save_witness :
    (saveComponent "abc123" 7 []
        ⟨none, none, none, none, none, none, none⟩).1 =
      [(saveComponent "abc123" 7 []
        ⟨none, none, none, none, none, none, none⟩).2] ∧
    (saveComponent "abc123" 7 []
        ⟨none, none, none, none, none, none, none⟩).2.tags = [] ∧
    (saveComponent "abc123" 7 []
        ⟨none, none, none, none, none, none, none⟩).2.framework = "react" := by
  have h := cre_c7_save "abc123" 7 ⟨none, none, none, none, none, none, none⟩ []
  exact ⟨h.2.2.2.2.2.2.2.2.2, h.2.2.2.2.2.1 rfl, h.2.2.2.2.2.2.2.2.1 rfl⟩

/-- C8 counterexample: a patch that carries an `id` field overwrites the
matching entry's id through the `{...c, ...patch, updatedAt}` spread —
`update("a", {id: "b"})` turns the stored id `"a"` into `"b"` — refuting
the claim that `update(id, patch)` leaves the matching entry's id
unchanged for every patch. -/
theorem cre_c8_counterexample :
    (updateComponent 5 [⟨"a", "n", [], "", "", [], "", "react", 0, 0⟩] "a"
        ⟨some "b", none, none, none, none, none, none, none, none,
          none⟩).map LibraryEntry.id = ["b"] ∧
    ([⟨"a", "n", [], "", "", [], "", "react", 0, 0⟩] :
        List LibraryEntry).map LibraryEntry.id = ["a"] ∧
    ¬ (["b"] : List String) = ["a"] :=
  ⟨rfl, rfl, by decide⟩

/-- C8 (amended): the store operations preserve the collection invariants
under the conditions the code actually guarantees — `update` leaves every
entry's id (hence uniqueness) unchanged and the matching entry's
`createdAt` unchanged only when the patch sets neither `id` nor
`createdAt`, stamps the matching entry's `updatedAt` to `now`, and leaves
non-matching entries untouched; `updatedAt >= createdAt` is preserved by
`update` when the clock is monotone; `delete` preserves both invariants;
`save` preserves uniqueness when the generated id is fresh and always
creates its entry with `createdAt = updatedAt`. A patch that sets `id` or
`createdAt` overwrites them (see the counterexample). -/
theorem cre_c8_amended (now : Nat) (st : List LibraryEntry) (id : String)
    (p : EntryPatch) :
    (p.id = none →
      (updateComponent now st id p).map LibraryEntry.id =
        st.map LibraryEntry.id ∧
      (idsUnique st → idsUnique (updateComponent now st id p))) ∧
    (p.id = none → p.createdAt = none →
      ∀ pr ∈ st.zip (updateComponent now st id p),
        pr.2.createdAt = pr.1.createdAt ∧
        (pr.1.id = id → pr.2.updatedAt = now) ∧
        (pr.1.id ≠ id → pr.2 = pr.1)) ∧
    (p.createdAt = none → timeOk st → (∀ c ∈ st, c.createdAt ≤ now) →
      timeOk (updateComponent now st id p)) ∧
    (idsUnique st → idsUnique (deleteComponent st id)) ∧
    (timeOk st → timeOk (deleteComponent st id)) ∧
    (∀ (randPart : String) (q : PartialEntry),
      (idsUnique st → createId randPart now ∉ st.map LibraryEntry.id →
        idsUnique (saveComponent randPart now st q).1) ∧
      (timeOk st → timeOk (saveComponent randPart now st q).1)) := by
  have hmapid : p.id = none →
      (updateComponent now st id p).map LibraryEntry.id =
        st.map LibraryEntry.id := by
    intro hp
    rw [updateComponent, List.map_map]
    apply List.map_congr_left
    intro c _
    by_cases hc : c.id = id
    · simp [Function.comp, hc, mergePatch, hp]
    · simp [Function.comp, hc]
  refine ⟨?_, ?_, ?_, ?_, ?_, ?_⟩
  · intro hp
    refine ⟨hmapid hp, ?_⟩
    intro hu
    rw [idsUnique, hmapid hp]
    exact hu
  · intro hp hcr
    intro pr hpr
    rw [updateComponent, zip_self_map] at hpr
    rw [List.mem_map] at hpr
    obtain ⟨c, hc, rfl⟩ := hpr
    by_cases hid : c.id = id
    · simp [hid, mergePatch, hcr]
    · simp [hid]
  · intro hcr ht hmono
    intro e he
    rw [updateComponent, List.mem_map] at he
    obtain ⟨c, hc, rfl⟩ := he
    by_cases hid : c.id = id
    · simp only [hid, if_true]
      show (mergePatch c p now).createdAt ≤ (mergePatch c p now).updatedAt
      simp [mergePatch, hcr]
      exact hmono c hc
    · simp only [hid, if_false]
      exact ht c hc
  · intro hu
    rw [idsUnique]
    exact List.Nodup.sublist
      (((List.filter_sublist st).map LibraryEntry.id)) hu
  · intro ht e he
    rw [deleteComponent, List.mem_filter] at he
    exact ht e he.1
  · intro randPart q
    constructor
    · intro hu hfresh
      rw [idsUnique, saveComponent]
      simp only [List.map_append, List.map_cons, List.map_nil]
      rw [List.nodup_append]
      refine ⟨hu, List.nodup_singleton _, ?_⟩
      intro x hx hx'
      rw [List.mem_singleton] at hx'
      subst hx'
      exact hfresh hx
    · intro ht e he
      rw [saveComponent] at he
      rw [List.mem_append] at he
      rcases he with he | he
      · exact ht e he
      · rw [List.mem_singleton] at he
        subst he
        exact Nat.le_refl _

/-- Witness for C8 on a concrete one-entry store, an all-`none` patch, a
monotone clock and a fresh save id. -/
theorem cre_c8_amended_witness :
    (updateComponent 5 [⟨"a", "n", [], "", "", [], "", "react", 1, 1⟩] "a"
        ⟨none, none, none, none, none, none, none, none, none, none⟩).map
      LibraryEntry.id =
      ([⟨"a", "n", [], "", "", [], "", "react", 1, 1⟩] :
        List LibraryEntry).map LibraryEntry.id ∧
    timeOk (updateComponent 5
      [⟨"a", "n", [], "", "", [], "", "react", 1, 1⟩] "a"
      ⟨none, none, none, none, none, none, none, none, none, none⟩) ∧
    idsUnique (saveComponent "r1" 5
      [⟨"a", "n", [], "", "", [], "", "react", 1, 1⟩]
      ⟨none, none, none, none, none, none, none⟩).1 := by
  have h := cre_c8_amended 5 [⟨"a", "n", [], "", "", [], "", "react", 1, 1⟩]
    "a" ⟨none, none, none, none, none, none, none, none, none, none⟩
  refine ⟨(h.1 rfl).1, ?_, ?_⟩
  · exact h.2.2.1 rfl (by unfold timeOk; decide) (by decide)
  · exact (h.2.2.2.2.2 "r1" ⟨none, none, none, none, none, none, none⟩).1
      (by unfold idsUnique; decide) (by decide)

/-! ## Background message dispatch (background.js)

The `chrome.runtime.onMessage` listener wraps every message in one async
handler with a trailing catch, so each delivered message produces exactly
one `sendResponse` call; the handler is therefore modelled as a total
function from the message (plus the outcomes of the awaited host calls,
each an `Except` whose error is the thrown error's optional `.message`)
to the single response object. -/

/-- The `{html, css, prompt}` payload of an `AI_REMIX` message; absent
fields destructure to `undefined`. -/
structure RemixPayload where
  html : Option String
  css : Option String
  prompt : Option String

/-- A delivered runtime message: the three handled types (with their
payloads, which may be absent) or any other/unknown type, whose `type`
field may itself be absent or empty. -/
inductive BgMessage where
  | aiRemix (payload : Option RemixPayload)
  | getApiKeyMsg
  | setApiKeyMsg (key : Option Json)
  | other (typeName : Option String)

/-- The single response object passed to `sendResponse`. -/
structure BgResponse where
  ok : Bool
  error : Option String
  variants : Option (List NormVariant)
  key : Option String

/-- JS falsiness of an optional string (`undefined` or `""`). -/
def optStrFalsy (o : Option String) : Bool :=
  match o with
  | none => true
  | some s => s = ""

/-- Lines 128-145: classify a caught error's message into a user-facing
message by substring match. -/
def classifyBgError (msg : String) : String :=
  if strContains msg "API key" || strContains msg "401" then
    "Invalid OpenAI API key. Please check your settings."
  else if strContains msg "Network" || strContains msg "fetch" then
    "Network error. Please check your internet connection."
  else if strContains msg "rate limit" || strContains msg "429" then
    "OpenAI API rate limit exceeded. Please try again later."
  else msg

/-- The trailing `catch (err)` of the listener: take `err?.message` (or
the fixed fallback), classify, respond `{ok: false, error}`. -/
def bgCatchResponse (errMsg : Option String) : BgResponse :=
  ⟨false, some (classifyBgError
    (optStrOr errMsg "Unexpected error in background service worker.")),
    none, none⟩

/-- Lines 50-156 of background.js, the whole `onMessage` listener body.
`remixResult` is the awaited outcome of `callOpenAIForRemix` (reached only
after the payload checks pass), `getKeyResult` of `getApiKey`,
`setKeyResult` of the inner `setApiKey` `try`; a thrown error carries an
optional `.message`. Every branch returns exactly one response. -/
def bgHandleMessage (msg : BgMessage)
    (remixResult : Except (Option String) (List NormVariant))
    (getKeyResult : Except (Option String) String)
    (setKeyResult : Except (Option String) Unit) : BgResponse :=
  match msg with
  | .aiRemix payload =>
      let html := payload.bind RemixPayload.html
      let css := payload.bind RemixPayload.css
      let prompt := payload.bind RemixPayload.prompt
      if optStrFalsy html && optStrFalsy css then
        ⟨false, some "Cannot remix: component HTML and CSS are both empty.",
          none, none⟩
      else if optStrFalsy prompt ||
          (jsTrim (prompt.getD "") = "") then
        ⟨false, some
          "Please provide a remix prompt (e.g., \x27add dark mode\x27).",
          none, none⟩
      else
        match getKeyResult with
        | .error e => bgCatchResponse e
        | .ok _ =>
            match remixResult with
            | .ok vs => ⟨true, none, some vs, none⟩
            | .error e => bgCatchResponse e
  | .getApiKeyMsg =>
      match getKeyResult with
      | .ok k => ⟨true, none, none, some k⟩
      | .error e => bgCatchResponse e
  | .setApiKeyMsg key =>
      match key with
      | some (Json.str s) =>
          if s = "" then ⟨false, some "Invalid API key format.", none, none⟩
          else
            match setKeyResult with
            | .ok _ => ⟨true, none, none, none⟩
            | .error e =>
                ⟨false, some ("Failed to save API key: " ++
                  optStrOr e "undefined"), none, none⟩
      | _ => ⟨false, some "Invalid API key format.", none, none⟩
  | .other typeName =>
      ⟨false, some ("Unknown message type: " ++ optStrOr typeName "undefined"),
        none, none⟩

/-- C10: the listener sends exactly one response per delivered message —
`bgHandleMessage` is a total function, so every message/outcome
combination yields one `BgResponse` carrying a boolean `ok` — an
unhandled message type gets `{ok: false, error}` naming the unknown type
(with the `"undefined"` placeholder when the type field is absent or
empty), every failure response carries an error string and every success
carries none, and an exception thrown while handling a valid remix
request (or while reading the key before it) becomes `{ok: false, error}`
with the classified user-facing message instead of leaving the sender
without a reply. -/
theorem cre_c10_bg_dispatch (msg : BgMessage)
    (rr : Except (Option String) (List NormVariant))
    (gk : Except (Option String) String)
    (sk : Except (Option String) Unit) :
    ((bgHandleMessage msg rr gk sk).ok = true ∨
      (bgHandleMessage msg rr gk sk).ok = false) ∧
    (∀ t, bgHandleMessage (.other t) rr gk sk =
      ⟨false, some ("Unknown message type: " ++ optStrOr t "undefined"),
        none, none⟩) ∧
    ((bgHandleMessage msg rr gk sk).ok = false →
      (bgHandleMessage msg rr gk sk).error.isSome) ∧
    ((bgHandleMessage msg rr gk sk).ok = true →
      (bgHandleMessage msg rr gk sk).error = none) ∧
    (∀ (payload : RemixPayload) (e : Option String),
      optStrFalsy payload.html = false →
      optStrFalsy payload.prompt = false →
      jsTrim (payload.prompt.getD "") ≠ "" →
      rr = .error e →
      bgHandleMessage (.aiRemix (some payload)) rr gk sk =
        (match gk with
          | .error ge => bgCatchResponse ge
          | .ok _ => bgCatchResponse e)) := by
  refine ⟨?_, ?_, ?_, ?_, ?_⟩
  · cases h : (bgHandleMessage msg rr gk sk).ok
    · exact Or.inr rfl
    · exact Or.inl rfl
  · intro t; rfl
  · cases msg <;> simp only [bgHandleMessage] <;> (repeat' split) <;>
      simp [bgCatchResponse]
  · cases msg <;> simp only [bgHandleMessage] <;> (repeat' split) <;>
      simp [bgCatchResponse]
  · intro payload e hhtml hprompt htrim hrr
    subst hrr
    cases gk with
    | error ge => simp [bgHandleMessage, hhtml, hprompt, htrim]
    | ok k => simp [bgHandleMessage, hhtml, hprompt, htrim]

/-- Witness for C10 at a concrete remix message whose handler threw a 401
error, classified to the invalid-key message. -/
theorem cre_c10_bg_dispatch_witness :
    bgHandleMessage (.aiRemix (some ⟨some "<b>", some "", some "dark mode"⟩))
      (.error (some "OpenAI request failed (401): x")) (.ok "k") (.ok ()) =
      ⟨false, some "Invalid OpenAI API key. Please check your settings.",
        none, none⟩ := by
  have h := (cre_c10_bg_dispatch
    (.aiRemix (some ⟨some "<b>", some "", some "dark mode"⟩))
    (.error (some "OpenAI request failed (401): x")) (.ok "k")
    (.ok ())).2.2.2.2
    ⟨some "<b>", some "", some "dark mode"⟩
    (some "OpenAI request failed (401): x") rfl rfl (by decide) rfl
  rw [h]
  rfl

end CRE
